import Mathlib

/-!
Verification development for the `TTInventory` grid store
(`src/pykonal_eq/inventory.py`).

The store keeps one shared grid geometry (`meta` group: `coord_sys`,
`field_type` attributes and the `min_coords`, `node_intervals`, `npts`
datasets) and named value arrays under the `data` group.  Coordinates are
modelled by exact rationals, grid sizes and indices by integers, and a
stored array by a function from integer index triples to values.  The
`add` and `read` methods are embedded as pure state transformers; Python
exceptions become explicit error values (paired with the post-state for
`add`, since an h5py exception leaves prior mutations in place).
-/

set_option autoImplicit false

namespace PyKonalEQ

/-- A 3-vector, indexed by axis. -/
abbrev Vec3 (α : Type) := Fin 3 → α

/-- The grid geometry recorded in the `meta` group together with its two
attribute tags (`coord_sys`, `field_type`). -/
structure Geometry where
  coord_sys : String
  field_type : String
  min_coords : Vec3 ℚ
  node_intervals : Vec3 ℚ
  npts : Vec3 ℤ

/-- A pykonal field in transit: tags, geometry and a dense value array,
modelled as a function of the three spatial indices.  (For vector fields
the trailing component axis lives inside `α`; no operation of the store
touches it.) -/
@[ext]
structure Field (α : Type) where
  coord_sys : String
  field_type : String
  min_coords : Vec3 ℚ
  node_intervals : Vec3 ℚ
  npts : Vec3 ℤ
  values : ℤ → ℤ → ℤ → α

/-- The HDF5 container contents: the optional `meta` group and the keyed
datasets of the `data` group (an association list, first binding wins,
matching h5py's unique dataset names). -/
structure H5File (α : Type) where
  meta : Option Geometry
  data : List (String × (ℤ → ℤ → ℤ → α))

/-- The container with no groups written yet (a freshly created file). -/
def emptyF (α : Type) : H5File α := ⟨none, []⟩

/-- The geometry block `add` records from a field on first write
(`inventory.py` lines 88-93). -/
def geometryOf {α : Type} (field : Field α) : Geometry :=
  ⟨field.coord_sys, field.field_type, field.min_coords,
    field.node_intervals, field.npts⟩

/-- The element-wise comparisons performed by the `assert` statements of
`add` (`inventory.py` lines 97-100): tags by equality, geometry vectors
element-wise. -/
def geomMatch {α : Type} (field : Field α) (g : Geometry) : Prop :=
  field.coord_sys = g.coord_sys ∧ field.field_type = g.field_type ∧
    (∀ i, field.min_coords i = g.min_coords i) ∧
    (∀ i, field.node_intervals i = g.node_intervals i) ∧
    (∀ i, field.npts i = g.npts i)

instance {α : Type} (field : Field α) (g : Geometry) :
    Decidable (geomMatch field g) := by
  unfold geomMatch; infer_instance

/-- Failures of `add`: the `assert` mismatch (spec: `GeometryMismatchError`)
and h5py's refusal to create an existing dataset name
(spec: `KeyConflictError`). -/
inductive AddError where
  | geometryMismatch
  | keyConflict
  deriving DecidableEq

/-- Failures of `read`: missing `meta` group (spec: `GeometryUnavailableError`),
crossed bounds (spec: `InvalidRangeError`), an unrecognized `field_type`
attribute, and a missing `data/<key>` dataset (spec: `KeyNotFoundError`). -/
inductive ReadError where
  | geometryUnavailable
  | invalidRange
  | unrecognizedFieldType
  | keyNotFound
  deriving DecidableEq

/-- `TTInventory.add` (`inventory.py` lines 86-105).  Returns the Python
result (`True` or the raised error) together with the container state after
the call; an error raised by `create_dataset` leaves earlier mutations (the
`meta` group written on a first `add`) in place, exactly as in Python. -/
def add {α : Type} (st : H5File α) (field : Field α) (key : String) :
    Except AddError Bool × H5File α :=
  match st.meta with
  | none =>
      let st1 : H5File α := ⟨some (geometryOf field), st.data⟩
      if (st1.data.lookup key).isSome then
        (Except.error AddError.keyConflict, st1)
      else
        (Except.ok true, ⟨st1.meta, st1.data ++ [(key, field.values)]⟩)
  | some g =>
      if geomMatch field g then
        if (st.data.lookup key).isSome then
          (Except.error AddError.keyConflict, st)
        else
          (Except.ok true, ⟨st.meta, st.data ++ [(key, field.values)]⟩)
      else
        (Except.error AddError.geometryMismatch, st)

/-- `np.clip(x, lo, hi)`, which numpy documents as
`minimum(hi, maximum(x, lo))`. -/
def clip (x lo hi : ℤ) : ℤ := min (max x lo) hi

/-- `np.any(min_coords >= max_coords)` guarding the `ValueError` of `read`
(`inventory.py` lines 126-128); only checked when both bounds are given. -/
def crossed (minQ maxQ : Option (Vec3 ℚ)) : Bool :=
  match minQ, maxQ with
  | some m, some M => decide (∃ i, M i ≤ m i)
  | _, _ => false

/-- The start-index computation of `read` (`inventory.py` lines 130-137):
`floor((min_coords - _min_coords) / _node_intervals)` clipped to
`[0, _npts - 1]` when `min_coords` is given, else `(0, 0, 0)`. -/
def idxStart (g : Geometry) (minQ : Option (Vec3 ℚ)) : Vec3 ℤ :=
  match minQ with
  | some m => fun i =>
      clip ⌊(m i - g.min_coords i) / g.node_intervals i⌋ 0 (g.npts i - 1)
  | none => fun _ => 0

/-- The end-index computation of `read` (`inventory.py` lines 139-146):
`ceil((max_coords - _min_coords) / _node_intervals) + 1` clipped to
`[idx_start + 1, _npts]` when `max_coords` is given, else `_npts`. -/
def idxEnd (g : Geometry) (start : Vec3 ℤ) (maxQ : Option (Vec3 ℚ)) : Vec3 ℤ :=
  match maxQ with
  | some M => fun i =>
      clip (⌈(M i - g.min_coords i) / g.node_intervals i⌉ + 1)
        (start i + 1) (g.npts i)
  | none => g.npts

/-- `TTInventory.read` (`inventory.py` lines 113-161): load the recorded
geometry from `meta`, validate the bounds, compute the index window,
dispatch on `field_type`, slice `data/<key>` and rebuild the field with the
windowed geometry. -/
def read {α : Type} (st : H5File α) (key : String)
    (minQ maxQ : Option (Vec3 ℚ)) : Except ReadError (Field α) :=
  match st.meta with
  | none => Except.error ReadError.geometryUnavailable
  | some g =>
      if crossed minQ maxQ then Except.error ReadError.invalidRange
      else
        let start := idxStart g minQ
        let stop := idxEnd g start maxQ
        if g.field_type = "scalar" ∨ g.field_type = "vector" then
          match st.data.lookup key with
          | none => Except.error ReadError.keyNotFound
          | some v =>
              Except.ok
                { coord_sys := g.coord_sys
                  field_type := g.field_type
                  min_coords := fun i =>
                    g.min_coords i + start i * g.node_intervals i
                  node_intervals := g.node_intervals
                  npts := fun i => stop i - start i
                  values := fun i j k =>
                    v (start 0 + i) (start 1 + j) (start 2 + k) }
        else Except.error ReadError.unrecognizedFieldType

/-- The derived `max_coords` property (`inventory.py` line 38):
`min_coords + node_intervals * (npts - 1)`. -/
def maxCoords (g : Geometry) : Vec3 ℚ :=
  fun i => g.min_coords i + g.node_intervals i * ((g.npts i : ℚ) - 1)

/-- `np.linspace(a, b, n)` with its default inclusive endpoint: the sample
at index `i` is `a + i * (b - a) / (n - 1)`. -/
def linspace (a b : ℚ) (n : ℤ) : ℤ → ℚ :=
  fun i => a + (i : ℚ) * ((b - a) / ((n : ℚ) - 1))

/-- The node mesh built by the `nodes` property (`inventory.py` lines 57-74):
after `meshgrid(..., indexing="ij")`, `stack` and `moveaxis`, entry
`(i, j, k, axis)` is the axis-wise linspace sample at that axis's index. -/
def computeNodes (g : Geometry) : ℤ → ℤ → ℤ → Vec3 ℚ :=
  fun i j k a =>
    linspace (g.min_coords a) (maxCoords g a) (g.npts a) (![i, j, k] a)

/-- A `TTInventory` instance: the open container handle plus the `_nodes`
attribute that the `nodes` property lazily creates (absent until the first
access). -/
structure TTState (α : Type) where
  file : H5File α
  nodesCache : Option (ℤ → ℤ → ℤ → Vec3 ℚ)

/-- The `nodes` property (`inventory.py` lines 57-74): return `_nodes` if
the attribute exists, otherwise build the mesh from the geometry currently
recorded in the file and memoize it.  Reading the geometry fails if the
`meta` group is absent. -/
def nodesGet {α : Type} (st : TTState α) :
    Except ReadError ((ℤ → ℤ → ℤ → Vec3 ℚ) × TTState α) :=
  match st.nodesCache with
  | some m => Except.ok (m, st)
  | none =>
      match st.file.meta with
      | none => Except.error ReadError.geometryUnavailable
      | some g =>
          let m := computeNodes g
          Except.ok (m, ⟨st.file, some m⟩)

/-- The `mode` setter (`inventory.py` lines 46-50): close the handle and
reopen the same path.  The reopened handle sees whatever the file then
holds (`newFile`); no other attribute of the instance is touched. -/
def set_mode {α : Type} (st : TTState α) (newFile : H5File α) : TTState α :=
  ⟨newFile, st.nodesCache⟩

/-! ### Concrete sample data used by witnesses -/

/-- A concrete stored array. -/
def vEx : ℤ → ℤ → ℤ → ℚ := fun i j k => i + 10 * j + 100 * k

/-- A concrete 10×10×10 unit-spacing Cartesian geometry at the origin. -/
def gEx : Geometry := ⟨"cartesian", "scalar", fun _ => 0, fun _ => 1, fun _ => 10⟩

/-- A container holding `gEx` and one dataset under key `"a"`. -/
def stEx : H5File ℚ := ⟨some gEx, [("a", vEx)]⟩

/-- A field matching `gEx`. -/
def fEx : Field ℚ := ⟨"cartesian", "scalar", fun _ => 0, fun _ => 1, fun _ => 10, vEx⟩

/-- `fEx` with a single mismatching component (`field_type`). -/
def fEx2 : Field ℚ := ⟨"cartesian", "vector", fun _ => 0, fun _ => 1, fun _ => 10, vEx⟩

/-- A 1×1×1 grid: its derived `max_coords` coincides with `min_coords`. -/
def gOne : Geometry := ⟨"cartesian", "scalar", fun _ => 0, fun _ => 1, fun _ => 1⟩

/-- A container holding `gOne` and one dataset under key `"a"`. -/
def stOne : H5File ℚ := ⟨some gOne, [("a", vEx)]⟩

/-! ### Helper lemmas -/

/-- The `assert` block of `add` succeeds exactly when the field carries the
recorded geometry block. -/
lemma geomMatch_iff {α : Type} (field : Field α) (g : Geometry) :
    geomMatch field g ↔ geometryOf field = g := by
  obtain ⟨cs, ft, mc, ni, np⟩ := g
  unfold geomMatch geometryOf
  simp only [Geometry.mk.injEq]
  constructor
  · rintro ⟨h1, h2, h3, h4, h5⟩
    exact ⟨h1, h2, funext h3, funext h4, funext h5⟩
  · rintro ⟨h1, h2, h3, h4, h5⟩
    exact ⟨h1, h2, fun i => congrFun h3 i, fun i => congrFun h4 i,
      fun i => congrFun h5 i⟩

/-- Characterization of the bound-crossing test. -/
lemma crossed_eq_true_iff (minQ maxQ : Option (Vec3 ℚ)) :
    crossed minQ maxQ = true ↔
      ∃ m M, minQ = some m ∧ maxQ = some M ∧ ∃ i, M i ≤ m i := by
  cases minQ with
  | none => simp [crossed]
  | some m =>
      cases maxQ with
      | none => simp [crossed]
      | some M => simp [crossed]

/-- A key absent from the front of an association list is looked up in the
appended tail. -/
lemma lookup_append_right {β : Type} (l1 l2 : List (String × β)) (key : String)
    (h : l1.lookup key = none) : (l1 ++ l2).lookup key = l2.lookup key := by
  induction l1 with
  | nil => rfl
  | cons hd tl ih =>
      obtain ⟨k, b⟩ := hd
      rw [List.cons_append]
      simp only [List.lookup] at h ⊢
      cases hkey : (key == k) with
      | true =>
          rw [hkey] at h
          exact Option.noConfusion h
      | false =>
          rw [hkey] at h
          exact ih h

/-- When the geometry is recorded, the bounds do not cross, the field type
is recognized and the key is present, `read` succeeds and returns exactly
the windowed field. -/
lemma read_eq_ok {α : Type} (st : H5File α) (g : Geometry) (key : String)
    (minQ maxQ : Option (Vec3 ℚ)) (v : ℤ → ℤ → ℤ → α)
    (hm : st.meta = some g)
    (hc : crossed minQ maxQ = false)
    (hft : g.field_type = "scalar" ∨ g.field_type = "vector")
    (hv : st.data.lookup key = some v) :
    read st key minQ maxQ = Except.ok
      { coord_sys := g.coord_sys
        field_type := g.field_type
        min_coords := fun i =>
          g.min_coords i + idxStart g minQ i * g.node_intervals i
        node_intervals := g.node_intervals
        npts := fun i =>
          idxEnd g (idxStart g minQ) maxQ i - idxStart g minQ i
        values := fun i j k =>
          v (idxStart g minQ 0 + i) (idxStart g minQ 1 + j)
            (idxStart g minQ 2 + k) } := by
  obtain ⟨meta, data⟩ := st
  simp only at hm hv
  subst hm
  simp only [read, hc, Bool.false_eq_true, if_false, hv, if_pos hft]

/-! ### Claims -/

/-- C7: once a geometry is recorded, an `add` whose field differs from it in
any component fails with the geometry-mismatch error (the `assert` failure)
and the container — metadata and stored datasets — is returned unchanged:
no partial write occurs before the check. -/
theorem add_geometry_mismatch_atomic {α : Type} (st : H5File α)
    (g : Geometry) (field : Field α) (key : String)
    (hm : st.meta = some g) (hne : geometryOf field ≠ g) :
    add st field key = (Except.error AddError.geometryMismatch, st) := by
  obtain ⟨meta, data⟩ := st
  simp only at hm
  subst hm
  simp only [add, if_neg (fun h => hne ((geomMatch_iff field g).mp h))]

/-- Witness for C7. -/
theorem add_geometry_mismatch_atomic_w :
    add stEx fEx2 "b" = (Except.error AddError.geometryMismatch, stEx) :=
  add_geometry_mismatch_atomic stEx gEx fEx2 "b" rfl
    (fun h => absurd (congrArg Geometry.field_type h) (by decide))

/-- C8: an `add` under a key that already holds a dataset fails with the
key-conflict error, the container is returned unchanged, and the first
dataset is still stored intact under that key. -/
theorem add_duplicate_key {α : Type} (st : H5File α) (g : Geometry)
    (field : Field α) (key : String) (v : ℤ → ℤ → ℤ → α)
    (hm : st.meta = some g) (hmatch : geomMatch field g)
    (hv : st.data.lookup key = some v) :
    add st field key = (Except.error AddError.keyConflict, st) ∧
      (add st field key).2.data.lookup key = some v := by
  obtain ⟨meta, data⟩ := st
  simp only at hm hv
  subst hm
  refine ⟨?_, ?_⟩ <;>
    simp only [add, if_pos hmatch, hv, Option.isSome_some, if_true, hv]

/-- Witness for C8. -/
theorem add_duplicate_key_w :
    add stEx fEx "a" = (Except.error AddError.keyConflict, stEx) ∧
      (add stEx fEx "a").2.data.lookup "a" = some vEx :=
  add_duplicate_key stEx gEx fEx "a" vEx rfl
    ⟨rfl, rfl, fun _ => rfl, fun _ => rfl, fun _ => rfl⟩ rfl

/-- C9: `read` fails with the geometry-unavailable error whenever the `meta`
group is absent — for every key and every pair of bounds, even invalid ones,
so the failure precedes range validation, index computation and field
construction — and fails with the key-not-found error when the geometry is
recorded, the bounds do not cross, the field type is recognized, but the
key holds no dataset. -/
theorem read_error_taxonomy {α : Type} (st : H5File α) (g : Geometry)
    (key : String) (minQ maxQ : Option (Vec3 ℚ)) :
    (st.meta = none →
      read st key minQ maxQ = Except.error ReadError.geometryUnavailable) ∧
    (st.meta = some g → crossed minQ maxQ = false →
      (g.field_type = "scalar" ∨ g.field_type = "vector") →
      st.data.lookup key = none →
      read st key minQ maxQ = Except.error ReadError.keyNotFound) := by
  obtain ⟨meta, data⟩ := st
  constructor
  · intro hm
    simp only at hm
    subst hm
    rfl
  · intro hm hc hft hnone
    simp only at hm hnone
    subst hm
    simp only [read, hc, Bool.false_eq_true, if_false, hnone, if_pos hft]

/-- Witness for C9. -/
theorem read_error_taxonomy_w :
    read (emptyF ℚ) "a" none none =
        Except.error ReadError.geometryUnavailable ∧
      read stEx "b" none none = Except.error ReadError.keyNotFound :=
  ⟨(read_error_taxonomy (emptyF ℚ) gEx "a" none none).1 rfl,
   (read_error_taxonomy stEx gEx "b" none none).2 rfl rfl (Or.inl rfl) rfl⟩

/-- C6: with a recorded geometry, `read` fails with the invalid-range error
exactly when both bounds are given and some axis has
`min_coords[axis] >= max_coords[axis]`; in particular no such failure can
occur when at most one bound is given. -/
theorem read_invalid_range_iff {α : Type} (st : H5File α) (g : Geometry)
    (key : String) (minQ maxQ : Option (Vec3 ℚ))
    (hm : st.meta = some g) :
    read st key minQ maxQ = Except.error ReadError.invalidRange ↔
      ∃ m M, minQ = some m ∧ maxQ = some M ∧ ∃ i, M i ≤ m i := by
  obtain ⟨meta, data⟩ := st
  simp only at hm
  subst hm
  rw [← crossed_eq_true_iff]
  by_cases hc : crossed minQ maxQ
  · simp only [read, hc, if_true, hc]
  · simp only [Bool.not_eq_true] at hc
    simp only [read, hc, Bool.false_eq_true, if_false]
    constructor
    · intro h
      split at h
      · split at h
        · exact ReadError.noConfusion (Except.error.inj h)
        · exact Except.noConfusion h
      · exact ReadError.noConfusion (Except.error.inj h)
    · intro h
      exact h.elim

/-- Witness for C6. -/
theorem read_invalid_range_iff_w :
    read stEx "a" (some fun _ => (1 : ℚ)) (some fun _ => (0 : ℚ)) =
      Except.error ReadError.invalidRange :=
  (read_invalid_range_iff stEx gEx "a" _ _ rfl).mpr
    ⟨_, _, rfl, rfl, ⟨0, by norm_num⟩⟩

/-- C3: every successful `read` returns a field whose `min_coords` is
`recorded_min + idx_start * node_intervals`, whose `node_intervals` are the
recorded ones unchanged, whose `npts` is `idx_end - idx_start` per axis,
and whose values are the stored array shifted by `idx_start` — the
`[idx_start, idx_end)` slice. -/
theorem read_reconstruction {α : Type} (st : H5File α) (g : Geometry)
    (key : String) (minQ maxQ : Option (Vec3 ℚ)) (v : ℤ → ℤ → ℤ → α)
    (f : Field α)
    (hm : st.meta = some g) (hv : st.data.lookup key = some v)
    (h : read st key minQ maxQ = Except.ok f) :
    (∀ i, f.min_coords i =
        g.min_coords i + idxStart g minQ i * g.node_intervals i) ∧
      f.node_intervals = g.node_intervals ∧
      (∀ i, f.npts i = idxEnd g (idxStart g minQ) maxQ i - idxStart g minQ i) ∧
      (∀ i j k, f.values i j k =
        v (idxStart g minQ 0 + i) (idxStart g minQ 1 + j)
          (idxStart g minQ 2 + k)) := by
  obtain ⟨meta, data⟩ := st
  simp only at hm hv
  subst hm
  simp only [read] at h
  split at h
  · exact Except.noConfusion h
  · split at h
    · rw [hv] at h
      injection h with h
      subst h
      exact ⟨fun i => rfl, rfl, fun i => rfl, fun i j k => rfl⟩
    · exact Except.noConfusion h

/-- Witness for C3. -/
theorem read_reconstruction_w :
    (∀ i, (Field.min_coords (α := ℚ)
        ⟨"cartesian", "scalar", fun _ => 0, fun _ => 1, fun _ => 10, vEx⟩ i =
        gEx.min_coords i + idxStart gEx none i * gEx.node_intervals i)) ∧
      (⟨"cartesian", "scalar", fun _ => 0, fun _ => 1, fun _ => 10, vEx⟩ :
        Field ℚ).node_intervals = gEx.node_intervals ∧
      (∀ i, (⟨"cartesian", "scalar", fun _ => 0, fun _ => 1, fun _ => 10,
        vEx⟩ : Field ℚ).npts i =
        idxEnd gEx (idxStart gEx none) none i - idxStart gEx none i) ∧
      (∀ i j k, (⟨"cartesian", "scalar", fun _ => 0, fun _ => 1, fun _ => 10,
        vEx⟩ : Field ℚ).values i j k =
        vEx (idxStart gEx none 0 + i) (idxStart gEx none 1 + j)
          (idxStart gEx none 2 + k)) := by
  have h : read stEx "a" none none = Except.ok
      ⟨"cartesian", "scalar", fun _ => 0, fun _ => 1, fun _ => 10, vEx⟩ := by
    have h0 := read_eq_ok stEx gEx "a" none none vEx rfl rfl (Or.inl rfl) rfl
    rw [h0]
    congr 1
    refine Field.mk.injEq .. ▸ ⟨rfl, rfl, ?_, rfl, ?_, ?_⟩ <;> funext i <;>
      simp [idxStart, idxEnd, gEx, clip]
  exact read_reconstruction stEx gEx "a" none none vEx _ rfl rfl h

/-- C4: for every field (scalar or vector) and key, on any container that
can accept the write (key unused; geometry not yet recorded, or recorded
and matching), `add` succeeds and a subsequent bound-free `read` of that
key returns a field whose `coord_sys`, `field_type`, `min_coords`,
`node_intervals`, `npts` and values are identical to the original
field's. -/
theorem add_read_roundtrip {α : Type} (st : H5File α) (field : Field α)
    (key : String)
    (hft : field.field_type = "scalar" ∨ field.field_type = "vector")
    (hfree : st.data.lookup key = none)
    (hgeom : st.meta = none ∨ ∃ g, st.meta = some g ∧ geomMatch field g) :
    ∃ (st2 : H5File α) (f : Field α),
      add st field key = (Except.ok true, st2) ∧
      read st2 key none none = Except.ok f ∧
      f.coord_sys = field.coord_sys ∧ f.field_type = field.field_type ∧
      (∀ i, f.min_coords i = field.min_coords i) ∧
      (∀ i, f.node_intervals i = field.node_intervals i) ∧
      (∀ i, f.npts i = field.npts i) ∧
      (∀ i j k, f.values i j k = field.values i j k) := by
  obtain ⟨meta, data⟩ := st
  simp only at hfree hgeom
  have hlk2 : (data ++ [(key, field.values)]).lookup key = some field.values := by
    rw [lookup_append_right data _ key hfree]
    simp [List.lookup]
  rcases hgeom with hnone | ⟨g, hg, hmatch⟩
  · subst hnone
    refine ⟨⟨some (geometryOf field), data ++ [(key, field.values)]⟩, _, ?_,
      read_eq_ok _ (geometryOf field) key none none field.values rfl rfl hft
        hlk2, rfl, rfl, ?_, fun i => rfl, ?_, ?_⟩
    · simp only [add, hfree, Option.isSome_none, Bool.false_eq_true, if_false]
    · intro i
      simp [idxStart, geometryOf]
    · intro i
      simp [idxStart, idxEnd, geometryOf]
    · intro i j k
      simp [idxStart]
  · subst hg
    refine ⟨⟨some g, data ++ [(key, field.values)]⟩, _, ?_,
      read_eq_ok _ g key none none field.values rfl rfl
        (by rw [← hmatch.2.1]; exact hft) hlk2,
      hmatch.1.symm, hmatch.2.1.symm, ?_, ?_, ?_, ?_⟩
    · simp only [add, if_pos hmatch, hfree, Option.isSome_none,
        Bool.false_eq_true, if_false]
    · intro i
      simp only [idxStart, Int.cast_zero, zero_mul, add_zero]
      exact (hmatch.2.2.1 i).symm
    · intro i
      exact (hmatch.2.2.2.1 i).symm
    · intro i
      simp only [idxStart, idxEnd, sub_zero]
      exact (hmatch.2.2.2.2 i).symm
    · intro i j k
      simp [idxStart]

/-- Witness for C4, on a container that already holds a matching geometry
and another dataset. -/
theorem add_read_roundtrip_w :
    ∃ (st2 : H5File ℚ) (f : Field ℚ),
      add stEx fEx "b" = (Except.ok true, st2) ∧
      read st2 "b" none none = Except.ok f ∧
      f.coord_sys = fEx.coord_sys ∧ f.field_type = fEx.field_type ∧
      (∀ i, f.min_coords i = fEx.min_coords i) ∧
      (∀ i, f.node_intervals i = fEx.node_intervals i) ∧
      (∀ i, f.npts i = fEx.npts i) ∧
      (∀ i j k, f.values i j k = fEx.values i j k) :=
  add_read_roundtrip stEx fEx "b" (Or.inl rfl) rfl
    (Or.inr ⟨gEx, rfl, rfl, rfl, fun _ => rfl, fun _ => rfl, fun _ => rfl⟩)

/-- C2: with a recorded geometry, `read` computes `idx_start` as
`floor((min_coords - recorded_min) / node_intervals)` clamped to
`[0, npts - 1]` per axis when `min_coords` is given and as `(0,0,0)` when
omitted, and the exclusive `idx_end` as
`ceil((max_coords - recorded_min) / node_intervals) + 1` clamped to
`[idx_start + 1, npts]` when `max_coords` is given and as `npts` when
omitted; bounds outside the grid's coordinate range are clamped rather
than raising (the read still succeeds), e.g. the 10×10×10 unit grid at the
origin queried with `min_coords = (-5,-5,-5)` starts its window at index
`(0,0,0)`. -/
theorem read_index_window {α : Type} (st : H5File α) (g : Geometry)
    (key : String) (m M : Vec3 ℚ) (v : ℤ → ℤ → ℤ → α)
    (hm : st.meta = some g)
    (hft : g.field_type = "scalar" ∨ g.field_type = "vector")
    (hv : st.data.lookup key = some v)
    (hlt : ∀ i, m i < M i) :
    (∀ i, idxStart g (some m) i =
        min (max ⌊(m i - g.min_coords i) / g.node_intervals i⌋ 0)
          (g.npts i - 1)) ∧
      (∀ i, idxStart g none i = 0) ∧
      (∀ s i, idxEnd g s (some M) i =
        min (max (⌈(M i - g.min_coords i) / g.node_intervals i⌉ + 1)
          (s i + 1)) (g.npts i)) ∧
      (∀ s, idxEnd g s none = g.npts) ∧
      (∃ f, read st key (some m) (some M) = Except.ok f) ∧
      (∀ i, idxStart gEx (some fun _ => (-5 : ℚ)) i = 0) := by
  have hc : crossed (some m) (some M) = false := by
    simp only [crossed, decide_eq_false_iff_not]
    rintro ⟨i, hi⟩
    exact absurd hi (not_le.mpr (hlt i))
  refine ⟨fun i => rfl, fun i => rfl, fun s i => rfl, fun s => rfl,
    ⟨_, read_eq_ok st g key (some m) (some M) v hm hc hft hv⟩, fun i => ?_⟩
  norm_num [idxStart, gEx, clip]

/-- Witness for C2, with out-of-grid bounds on both sides. -/
theorem read_index_window_w :
    (∀ i, idxStart gEx (some fun _ => (-5 : ℚ)) i =
        min (max ⌊((fun _ => (-5 : ℚ)) i - gEx.min_coords i) /
          gEx.node_intervals i⌋ 0) (gEx.npts i - 1)) ∧
      (∀ i, idxStart gEx none i = 0) ∧
      (∀ s i, idxEnd gEx s (some fun _ => (20 : ℚ)) i =
        min (max (⌈((fun _ => (20 : ℚ)) i - gEx.min_coords i) /
          gEx.node_intervals i⌉ + 1) (s i + 1)) (gEx.npts i)) ∧
      (∀ s, idxEnd gEx s none = gEx.npts) ∧
      (∃ f, read stEx "a" (some fun _ => (-5 : ℚ)) (some fun _ => (20 : ℚ)) =
        Except.ok f) ∧
      (∀ i, idxStart gEx (some fun _ => (-5 : ℚ)) i = 0) :=
  read_index_window stEx gEx "a" (fun _ => (-5 : ℚ)) (fun _ => (20 : ℚ)) vEx
    rfl (Or.inl rfl) rfl (fun i => by norm_num)

/-- On an axis where the requested interval `[mq, Mq]` is non-degenerate and
lies inside the grid's coordinate range, both clips of the index-window
computation are no-ops: the start index is the bare floor and the end index
the bare ceiling plus one. -/
lemma axis_window (gmin d mq Mq : ℚ) (n : ℤ)
    (hd : 0 < d) (hlt : mq < Mq) (hlo : gmin ≤ mq)
    (hhi : Mq ≤ gmin + d * ((n : ℚ) - 1)) :
    clip ⌊(mq - gmin) / d⌋ 0 (n - 1) = ⌊(mq - gmin) / d⌋ ∧
      clip (⌈(Mq - gmin) / d⌉ + 1) (clip ⌊(mq - gmin) / d⌋ 0 (n - 1) + 1) n =
        ⌈(Mq - gmin) / d⌉ + 1 := by
  set p := (mq - gmin) / d with hp
  set q := (Mq - gmin) / d with hq
  have hp0 : (0 : ℚ) ≤ p := div_nonneg (by linarith) hd.le
  have hqn : q ≤ (n : ℚ) - 1 := by
    rw [hq, div_le_iff₀ hd]
    linarith
  have hpq : p ≤ q := by
    rw [hp, hq, div_le_div_iff₀ hd hd]
    exact mul_le_mul_of_nonneg_right (by linarith) hd.le
  have hfloor0 : 0 ≤ ⌊p⌋ := Int.le_floor.mpr (by exact_mod_cast hp0)
  have hfloorn : ⌊p⌋ ≤ n - 1 := by
    have h1 : ⌊p⌋ ≤ ⌊((n - 1 : ℤ) : ℚ)⌋ :=
      Int.floor_le_floor (by push_cast; linarith)
    simpa using h1
  have hceiln : ⌈q⌉ ≤ n - 1 := by
    have h1 : ⌈q⌉ ≤ ⌈((n - 1 : ℤ) : ℚ)⌉ :=
      Int.ceil_le_ceil (by push_cast; linarith)
    simpa using h1
  have hfc : ⌊p⌋ ≤ ⌈q⌉ := by
    have h1 : (⌊p⌋ : ℚ) ≤ (⌈q⌉ : ℚ) :=
      le_trans (Int.floor_le p) (le_trans hpq (Int.le_ceil q))
    exact_mod_cast h1
  have hstart : clip ⌊p⌋ 0 (n - 1) = ⌊p⌋ := by
    unfold clip
    rw [max_eq_left hfloor0, min_eq_left hfloorn]
  refine ⟨hstart, ?_⟩
  rw [hstart]
  unfold clip
  rw [max_eq_left (by omega), min_eq_left (by omega)]

/-- C1 (amended): for a stored dataset and a requested pair with
`min_coords < max_coords` per axis whose bounds lie inside the grid's
coordinate range, the returned field's coordinate range contains the
requested range on every axis (the upper bound inclusively, not strictly),
and its `npts` is minimal: any index window whose node coordinates cover
the requested range on an axis has at least as many points. -/
theorem windowed_read_containment {α : Type} (st : H5File α) (g : Geometry)
    (key : String) (m M : Vec3 ℚ) (v : ℤ → ℤ → ℤ → α) (f : Field α)
    (hm : st.meta = some g)
    (hv : st.data.lookup key = some v)
    (hd : ∀ i, 0 < g.node_intervals i)
    (hlt : ∀ i, m i < M i)
    (hlo : ∀ i, g.min_coords i ≤ m i)
    (hhi : ∀ i, M i ≤ maxCoords g i)
    (h : read st key (some m) (some M) = Except.ok f) :
    ∀ i, (f.min_coords i ≤ m i ∧
        M i ≤ f.min_coords i + f.node_intervals i * ((f.npts i : ℚ) - 1)) ∧
      ∀ a b : ℤ, g.min_coords i + (a : ℚ) * g.node_intervals i ≤ m i →
        M i ≤ g.min_coords i + (b : ℚ) * g.node_intervals i →
        f.npts i ≤ b - a + 1 := by
  obtain ⟨hmin, hint, hnpts, hvals⟩ :=
    read_reconstruction st g key (some m) (some M) v f hm hv h
  intro i
  have hw := axis_window (g.min_coords i) (g.node_intervals i) (m i) (M i)
    (g.npts i) (hd i) (hlt i) (hlo i) (hhi i)
  have hs : idxStart g (some m) i =
      ⌊(m i - g.min_coords i) / g.node_intervals i⌋ := hw.1
  have he : idxEnd g (idxStart g (some m)) (some M) i =
      ⌈(M i - g.min_coords i) / g.node_intervals i⌉ + 1 := hw.2
  set p := (m i - g.min_coords i) / g.node_intervals i with hp
  set q := (M i - g.min_coords i) / g.node_intervals i with hq
  have hpm : p * g.node_intervals i = m i - g.min_coords i :=
    div_mul_cancel₀ _ (hd i).ne'
  have hqM : q * g.node_intervals i = M i - g.min_coords i :=
    div_mul_cancel₀ _ (hd i).ne'
  refine ⟨⟨?_, ?_⟩, ?_⟩
  · rw [hmin i, hs]
    have h1 : (⌊p⌋ : ℚ) * g.node_intervals i ≤ p * g.node_intervals i :=
      mul_le_mul_of_nonneg_right (Int.floor_le p) (hd i).le
    linarith
  · rw [hmin i, hnpts i, hint, hs, he]
    push_cast
    have h2 : q * g.node_intervals i ≤ (⌈q⌉ : ℚ) * g.node_intervals i :=
      mul_le_mul_of_nonneg_right (Int.le_ceil q) (hd i).le
    linarith
  · intro a b ha hb
    rw [hnpts i, hs, he]
    have ha2 : a ≤ ⌊p⌋ :=
      Int.le_floor.mpr (by rw [hp, le_div_iff₀ (hd i)]; linarith)
    have hb2 : ⌈q⌉ ≤ b :=
      Int.ceil_le.mpr (by rw [hq, div_le_iff₀ (hd i)]; linarith)
    omega

/-- Counterexample to C1 as stated: on the 10×10×10 unit grid at the origin,
requesting `[1, 5]` on each axis (bounds well inside the grid) returns a
window whose upper coordinate equals the requested upper bound `5` — it
does not strictly contain it. -/
theorem windowed_read_containment_cex :
    ∃ f : Field ℚ,
      read stEx "a" (some fun _ => (1 : ℚ)) (some fun _ => (5 : ℚ)) =
          Except.ok f ∧
        f.min_coords 0 + f.node_intervals 0 * ((f.npts 0 : ℚ) - 1) = 5 ∧
        ¬ (5 : ℚ) <
          f.min_coords 0 + f.node_intervals 0 * ((f.npts 0 : ℚ) - 1) := by
  have hc : crossed (some fun _ => (1 : ℚ)) (some fun _ => (5 : ℚ)) = false := by
    simp only [crossed, decide_eq_false_iff_not]
    rintro ⟨i, hi⟩
    norm_num at hi
  refine ⟨_, read_eq_ok stEx gEx "a" _ _ vEx rfl hc (Or.inl rfl) rfl, ?_, ?_⟩ <;>
    norm_num [idxStart, idxEnd, gEx, clip]

/-- Witness for C1 (amended): a request `[1, 9/2]` inside the sample grid,
instantiated on the first axis. -/
theorem windowed_read_containment_w :
    ∃ f : Field ℚ,
      read stEx "a" (some fun _ => (1 : ℚ)) (some fun _ => (9 / 2 : ℚ)) =
          Except.ok f ∧
        ((f.min_coords 0 ≤ 1 ∧
            (9 / 2 : ℚ) ≤
              f.min_coords 0 + f.node_intervals 0 * ((f.npts 0 : ℚ) - 1)) ∧
          ∀ a b : ℤ,
            gEx.min_coords 0 + (a : ℚ) * gEx.node_intervals 0 ≤ 1 →
            (9 / 2 : ℚ) ≤ gEx.min_coords 0 + (b : ℚ) * gEx.node_intervals 0 →
            f.npts 0 ≤ b - a + 1) := by
  have hread := read_eq_ok stEx gEx "a" (some fun _ => (1 : ℚ))
    (some fun _ => (9 / 2 : ℚ)) vEx rfl
    (by simp only [crossed, decide_eq_false_iff_not]
        rintro ⟨i, hi⟩
        norm_num at hi)
    (Or.inl rfl) rfl
  refine ⟨_, hread, ?_⟩
  exact windowed_read_containment stEx gEx "a" (fun _ => (1 : ℚ))
    (fun _ => (9 / 2 : ℚ)) vEx _ rfl rfl
    (fun i => by norm_num [gEx]) (fun i => by norm_num)
    (fun i => by norm_num [gEx]) (fun i => by norm_num [gEx, maxCoords])
    hread 0

/-- With a recorded geometry and crossing bounds, `read` raises the
invalid-range error. -/
lemma read_invalid {α : Type} (st : H5File α) (g : Geometry) (key : String)
    (minQ maxQ : Option (Vec3 ℚ)) (hm : st.meta = some g)
    (hc : crossed minQ maxQ = true) :
    read st key minQ maxQ = Except.error ReadError.invalidRange := by
  obtain ⟨meta, data⟩ := st
  simp only at hm
  subst hm
  simp only [read, hc, if_true]

/-- C5 (amended): when every axis has at least two grid points (so the
derived full-extent bounds are strictly ordered) and positive spacing,
reading with bounds equal to the full grid extent
`[min_coords, min_coords + node_intervals * (npts - 1)]` returns the same
field — same geometry and same values — as reading with no bounds. -/
theorem narrow_full_extent {α : Type} (st : H5File α) (g : Geometry)
    (key : String) (v : ℤ → ℤ → ℤ → α)
    (hm : st.meta = some g)
    (hft : g.field_type = "scalar" ∨ g.field_type = "vector")
    (hv : st.data.lookup key = some v)
    (hd : ∀ i, 0 < g.node_intervals i)
    (hn : ∀ i, 2 ≤ g.npts i) :
    read st key (some g.min_coords) (some (maxCoords g)) =
      read st key none none := by
  have hps : ∀ i, (0 : ℚ) < g.node_intervals i * ((g.npts i : ℚ) - 1) := by
    intro i
    apply mul_pos (hd i)
    have h2 : (2 : ℚ) ≤ (g.npts i : ℚ) := by exact_mod_cast hn i
    linarith
  have hc : crossed (some g.min_coords) (some (maxCoords g)) = false := by
    simp only [crossed, decide_eq_false_iff_not]
    rintro ⟨i, hi⟩
    simp only [maxCoords] at hi
    linarith [hps i]
  have hstart : ∀ i, idxStart g (some g.min_coords) i = 0 := by
    intro i
    show clip ⌊(g.min_coords i - g.min_coords i) / g.node_intervals i⌋ 0
      (g.npts i - 1) = 0
    rw [sub_self, zero_div, Int.floor_zero]
    unfold clip
    have h2 := hn i
    omega
  have hend : ∀ i,
      idxEnd g (idxStart g (some g.min_coords)) (some (maxCoords g)) i =
        g.npts i := by
    intro i
    show clip (⌈(maxCoords g i - g.min_coords i) / g.node_intervals i⌉ + 1)
      (idxStart g (some g.min_coords) i + 1) (g.npts i) = g.npts i
    rw [hstart i]
    have hq : (maxCoords g i - g.min_coords i) / g.node_intervals i =
        (g.npts i : ℚ) - 1 := by
      simp only [maxCoords, add_sub_cancel_left]
      exact mul_div_cancel_left₀ _ (hd i).ne'
    rw [hq, show ((g.npts i : ℚ) - 1) = ((g.npts i - 1 : ℤ) : ℚ) by push_cast; ring,
      Int.ceil_intCast]
    unfold clip
    have h2 := hn i
    omega
  rw [read_eq_ok st g key (some g.min_coords) (some (maxCoords g)) v hm hc hft hv,
    read_eq_ok st g key none none v hm rfl hft hv]
  refine congrArg Except.ok (Field.ext ?_ ?_ ?_ ?_ ?_ ?_)
  · rfl
  · rfl
  · funext i
    dsimp only
    rw [hstart i]
    rfl
  · rfl
  · funext i
    dsimp only
    rw [hend i, hstart i]
    rfl
  · funext i j k
    dsimp only
    rw [hstart 0, hstart 1, hstart 2]
    rfl

/-- Counterexample to C5 as stated: on a 1×1×1 grid the derived full-extent
bounds coincide, so the bounded read raises the invalid-range error while
the unbounded read succeeds — the two reads are not equal. -/
theorem narrow_full_extent_cex :
    read stOne "a" (some gOne.min_coords) (some (maxCoords gOne)) =
        Except.error ReadError.invalidRange ∧
      read stOne "a" (some gOne.min_coords) (some (maxCoords gOne)) ≠
        read stOne "a" none none := by
  have hc : crossed (some gOne.min_coords) (some (maxCoords gOne)) = true := by
    simp only [crossed, decide_eq_true_eq]
    refine ⟨0, ?_⟩
    norm_num [gOne, maxCoords]
  have hinv := read_invalid stOne gOne "a" _ _ rfl hc
  refine ⟨hinv, ?_⟩
  rw [hinv, read_eq_ok stOne gOne "a" none none vEx rfl rfl (Or.inl rfl) rfl]
  exact fun hcontra => Except.noConfusion hcontra

/-- Witness for C5 (amended). -/
theorem narrow_full_extent_w :
    read stEx "a" (some gEx.min_coords) (some (maxCoords gEx)) =
      read stEx "a" none none :=
  narrow_full_extent stEx gEx "a" vEx rfl (Or.inl rfl) rfl
    (fun i => by norm_num [gEx]) (fun i => by norm_num [gEx])

/-- C10: once the `nodes` property has been computed (any successful access,
cached or not), every later access returns the very same mesh and leaves the
instance unchanged; replacing the underlying handle through the `mode`
setter — even with a file whose stored geometry is completely different —
does not invalidate the cache: the access after `set_mode` still returns
the original mesh without consulting the new file. -/
theorem nodes_cache_stale {α : Type} (st : TTState α)
    (mesh : ℤ → ℤ → ℤ → Vec3 ℚ) (st2 : TTState α)
    (h : nodesGet st = Except.ok (mesh, st2)) :
    nodesGet st2 = Except.ok (mesh, st2) ∧
      ∀ newFile : H5File α, nodesGet (set_mode st2 newFile) =
        Except.ok (mesh, set_mode st2 newFile) := by
  obtain ⟨file, cache⟩ := st
  cases cache with
  | some m0 =>
      simp only [nodesGet, Except.ok.injEq, Prod.mk.injEq] at h
      obtain ⟨h1, h2⟩ := h
      subst h1
      subst h2
      exact ⟨rfl, fun _ => rfl⟩
  | none =>
      simp only [nodesGet] at h
      split at h
      · exact Except.noConfusion h
      · simp only [Except.ok.injEq, Prod.mk.injEq] at h
        obtain ⟨h1, h2⟩ := h
        subst h1
        subst h2
        exact ⟨rfl, fun _ => rfl⟩

/-- Witness for C10. -/
theorem nodes_cache_stale_w :
    nodesGet (⟨stEx, some (computeNodes gEx)⟩ : TTState ℚ) =
        Except.ok (computeNodes gEx, ⟨stEx, some (computeNodes gEx)⟩) ∧
      ∀ newFile : H5File ℚ,
        nodesGet (set_mode (⟨stEx, some (computeNodes gEx)⟩ : TTState ℚ) newFile) =
          Except.ok (computeNodes gEx,
            set_mode (⟨stEx, some (computeNodes gEx)⟩ : TTState ℚ) newFile) :=
  nodes_cache_stale ⟨stEx, none⟩ (computeNodes gEx)
    ⟨stEx, some (computeNodes gEx)⟩ rfl

end PyKonalEQ
